import Mathlib

/-!
Shallow embedding of the PII detection and redaction core of
`src/detector_Barath_S.py` (class `PIIDetector`).

Python strings are modelled as `List Char` (ASCII text, which is all the
detector's patterns distinguish).  Each compiled regular expression of the
source is modelled by a hand-written matcher implementing the same
leftmost-search and greedy-backtracking semantics; `re.search`, `re.sub`
and `re.findall` are modelled by fuel-based position scanners (the fuel is
the string length, which always suffices because every pattern here
matches at least one character).
-/

/-- Python regex word character `\w` (ASCII fragment: letters, digits, underscore). -/
def isWordChar (c : Char) : Bool := c.isAlphanum || c == '_'

/-- Python regex whitespace `\s` and the default `str.strip` / `str.split` set. -/
def isSpaceC (c : Char) : Bool :=
  c == ' ' || c == '\t' || c == '\n' || c == '\r' || c == '\x0b' || c == '\x0c'

/-- Word-character test lifted to an optional character (out of range = non-word). -/
def optWord : Option Char → Bool
  | some c => isWordChar c
  | none => false

/-- Python regex `\b`: a word boundary lies between characters `prev` and `next`. -/
def boundaryAt (prev next : Option Char) : Bool := optWord prev != optWord next

/-- Character of `s` at index `i`, if any. -/
def charAt (s : List Char) (i : Nat) : Option Char := (s.drop i).head?

/-- Whether the character at index `i` exists and is a word character. -/
def wordAt (s : List Char) (i : Nat) : Bool := optWord (charAt s i)

/-- Whether the character at index `i` exists and is regex whitespace. -/
def spaceAt (s : List Char) (i : Nat) : Bool :=
  match charAt s i with
  | some c => isSpaceC c
  | none => false

/-- Whether `s` has at least `i + n` characters and positions `i..i+n-1` are all digits. -/
def digitsAt (s : List Char) (i n : Nat) : Bool :=
  ((s.drop i).take n).length == n && ((s.drop i).take n).all Char.isDigit

/-- Length of the maximal prefix of `s` whose characters satisfy `p`
(the span a greedy `p*` consumes). -/
def runLen (p : Char → Bool) (s : List Char) : Nat := (s.takeWhile p).length

/-- Descending list `[hi, hi-1, ..., lo]` (empty when `hi < lo`): the order in
which a greedy bounded quantifier tries lengths while backtracking. -/
def descRange (hi lo : Nat) : List Nat := (List.range (hi + 1 - lo)).map (fun i => hi - i)

/-- First successful result of `f` over a list of candidate lengths. -/
def firstSome (f : Nat → Option Nat) : List Nat → Option Nat
  | [] => none
  | n :: ns =>
    match f n with
    | some r => some r
    | none => firstSome f ns

/-- Python `str.strip()`: remove leading and trailing whitespace. -/
def strip (s : List Char) : List Char :=
  ((s.dropWhile isSpaceC).reverse.dropWhile isSpaceC).reverse

/-- Python `s[-n:]`: the last `n` characters of `s`. -/
def lastN (n : Nat) (s : List Char) : List Char := s.drop (s.length - n)

/-- Python `str.lower()` (ASCII). -/
def lowerStr (s : List Char) : List Char := s.map Char.toLower

/-- Python `str.split()` with no argument: split on whitespace runs, dropping
empty pieces. -/
def splitWS (s : List Char) : List (List Char) :=
  (List.splitOnP isSpaceC s).filter (fun w => !w.isEmpty)

/-!
## Matchers for the source's compiled patterns

Each `try…` function receives the character immediately before the current
position (`prev`, for `\b`) and the suffix of the string starting at the
current position, and returns the length of the match the Python engine
would produce at this position, if any.
-/

/-- Tail of the phone patterns: `[789]\d{9}\b` (used after the `+91`/`91`
prefixes and for the bare variant). -/
def phoneCore10 (s : List Char) : Bool :=
  (match s.head? with
   | some c => c == '7' || c == '8' || c == '9'
   | none => false)
  && digitsAt s 1 9 && !(wordAt s 10)

/-- Source pattern `\b\d{10}\b` (`self.patterns['phone']`). -/
def tryPhone10 (prev : Option Char) (s : List Char) : Option Nat :=
  if boundaryAt prev s.head? && digitsAt s 0 10 && !(wordAt s 10) then some 10 else none

/-- Source pattern `\b\+91[-\s]?[789]\d{9}\b` (first phone variation).
The optional separator is greedy: a present separator is tried first. -/
def tryPlus91 (prev : Option Char) (s : List Char) : Option Nat :=
  match s with
  | '+' :: '9' :: '1' :: rest =>
    if boundaryAt prev (some '+') then
      match rest with
      | c :: rest2 =>
        if (c == '-' || isSpaceC c) && phoneCore10 rest2 then some 14
        else if phoneCore10 rest then some 13
        else none
      | [] => none
    else none
  | _ => none

/-- Source pattern `\b91[789]\d{9}\b` (second phone variation). -/
def try91 (prev : Option Char) (s : List Char) : Option Nat :=
  match s with
  | '9' :: '1' :: rest =>
    if boundaryAt prev (some '9') && phoneCore10 rest then some 12 else none
  | _ => none

/-- Source pattern `\b[789]\d{9}\b` (third phone variation). -/
def try789 (prev : Option Char) (s : List Char) : Option Nat :=
  if boundaryAt prev s.head? && phoneCore10 s then some 10 else none

/-- One greedy alternative of the Aadhar pattern with the optional spaces
present (`a = 1`) or absent (`a = 0`), likewise `b`: checks
`\s?\d{4}\s?\d{4}\b` after the initial `[2-9]\d{3}`. -/
def aadharTail (s : List Char) (a b : Nat) : Bool :=
  (a == 0 || spaceAt s 4) && digitsAt s (4 + a) 4
    && (b == 0 || spaceAt s (8 + a)) && digitsAt s (8 + a + b) 4
    && !(wordAt s (12 + a + b))

/-- Source pattern `\b[2-9]\d{3}\s?\d{4}\s?\d{4}\b` (`self.patterns['aadhar']`).
The two greedy `\s?` are backtracked in the order (1,1), (1,0), (0,1), (0,0). -/
def tryAadhar (prev : Option Char) (s : List Char) : Option Nat :=
  if boundaryAt prev s.head?
      && (match s.head? with
          | some c => decide ('2' ≤ c) && decide (c ≤ '9')
          | none => false)
      && digitsAt s 1 3 then
    if aadharTail s 1 1 then some 14
    else if aadharTail s 1 0 then some 13
    else if aadharTail s 0 1 then some 13
    else if aadharTail s 0 0 then some 12
    else none
  else none

/-- Source pattern `\b[A-Z]\d{7}\b` with `re.IGNORECASE`
(`self.patterns['passport']`): any ASCII letter then exactly 7 digits. -/
def tryPassport (prev : Option Char) (s : List Char) : Option Nat :=
  if boundaryAt prev s.head?
      && (match s.head? with
          | some c => c.isAlpha
          | none => false)
      && digitsAt s 1 7 && !(wordAt s 8) then some 8
  else none

/-- Character class `[a-zA-Z0-9.-]` of the UPI local part. -/
def classUpiLocal (c : Char) : Bool := c.isAlphanum || c == '.' || c == '-'

/-- Source pattern `\b[a-zA-Z0-9.-]{2,256}@[a-zA-Z]{2,64}\b`
(`self.patterns['upi']`), with greedy backtracking on both bounded
quantifiers (longest lengths first). -/
def tryUpi (prev : Option Char) (s : List Char) : Option Nat :=
  if boundaryAt prev s.head? then
    let r1 := min (runLen classUpiLocal s) 256
    firstSome
      (fun L =>
        if charAt s L == some '@' then
          let t := s.drop (L + 1)
          let r2 := min (runLen Char.isAlpha t) 64
          firstSome
            (fun M => if !(wordAt t M) then some (L + 1 + M) else none)
            (descRange r2 2)
        else none)
      (descRange r1 2)
  else none

/-- Character class `[a-zA-Z0-9._%+-]` of the email local part. -/
def classEmailLocal (c : Char) : Bool :=
  c.isAlphanum || c == '.' || c == '_' || c == '%' || c == '+' || c == '-'

/-- Character class `[a-zA-Z0-9.-]` of the email domain part. -/
def classEmailDomain (c : Char) : Bool := c.isAlphanum || c == '.' || c == '-'

/-- Source pattern `\b[a-zA-Z0-9._%+-]+@[a-zA-Z0-9.-]+\.[a-zA-Z]{2,}\b`
(`self.patterns['email']`), with greedy backtracking: local part, then the
domain run (backtracked to expose a literal dot), then the TLD run. -/
def tryEmail (prev : Option Char) (s : List Char) : Option Nat :=
  if boundaryAt prev s.head? then
    let r1 := runLen classEmailLocal s
    firstSome
      (fun L =>
        if charAt s L == some '@' then
          let t := s.drop (L + 1)
          let r2 := runLen classEmailDomain t
          firstSome
            (fun D =>
              if charAt t D == some '.' then
                let u := t.drop (D + 1)
                let r3 := runLen Char.isAlpha u
                firstSome
                  (fun M => if !(wordAt u M) then some (L + 1 + D + 1 + M) else none)
                  (descRange r3 2)
              else none)
            (descRange r2 1)
        else none)
      (descRange r1 1)
  else none

/-- Source pattern `\b[A-Z][a-z]+\s+[A-Z][a-z]+\b` (`self.name_pattern`).
Adjacent quantified classes are pairwise disjoint ([a-z] vs `\s`, `\s` vs
[A-Z]) and a shorter final [a-z]+ run always faces a word character, so the
greedy maximal runs are the only candidates the Python engine can accept. -/
def tryName (prev : Option Char) (s : List Char) : Option Nat :=
  match s.head? with
  | some c =>
    if boundaryAt prev (some c) && c.isUpper then
      let a := runLen Char.isLower (s.drop 1)
      if a == 0 then none
      else
        let sp := runLen isSpaceC (s.drop (1 + a))
        if sp == 0 then none
        else
          match charAt s (1 + a + sp) with
          | some c2 =>
            if c2.isUpper then
              let b := runLen Char.isLower (s.drop (1 + a + sp + 1))
              if b == 0 then none
              else if !(wordAt s (1 + a + sp + 1 + b)) then some (1 + a + sp + 1 + b)
              else none
            else none
          | none => none
    else none
  | none => none

/-!
## The scanning engines: `re.search`, `re.sub`, `re.findall`
-/

/-- Position scanner for `re.search`: is there a match at any position?
`prev` is the character before the current position. -/
def searchPos (tryAt : Option Char → List Char → Option Nat) :
    Option Char → List Char → Bool
  | prev, [] => (tryAt prev []).isSome
  | prev, c :: cs => (tryAt prev (c :: cs)).isSome || searchPos tryAt (some c) cs

/-- Python `pattern.search(s) is not None`. -/
def reSearch (tryAt : Option Char → List Char → Option Nat) (s : List Char) : Bool :=
  searchPos tryAt none s

/-- Fuel-driven scanner for `re.sub`: replace each leftmost non-overlapping
match and continue after its end.  The fuel (initially the string length)
only ever runs out on the empty string, because every match consumes at
least one character. -/
def subPosF (tryAt : Option Char → List Char → Option Nat)
    (repl : List Char → List Char) : Nat → Option Char → List Char → List Char
  | 0, _, s => s
  | _ + 1, _, [] => []
  | fuel + 1, prev, c :: cs =>
    match tryAt prev (c :: cs) with
    | some (k + 1) =>
      let m := (c :: cs).take (k + 1)
      repl m ++ subPosF tryAt repl fuel m.getLast? ((c :: cs).drop (k + 1))
    | _ => c :: subPosF tryAt repl fuel (some c) cs

/-- Python `pattern.sub(repl, s)` for patterns that never match empty text. -/
def reSub (tryAt : Option Char → List Char → Option Nat)
    (repl : List Char → List Char) (s : List Char) : List Char :=
  subPosF tryAt repl s.length none s

/-- Fuel-driven scanner for `re.findall`: collect leftmost non-overlapping
matches in order. -/
def findPosF (tryAt : Option Char → List Char → Option Nat) :
    Nat → Option Char → List Char → List (List Char)
  | 0, _, _ => []
  | _ + 1, _, [] => []
  | fuel + 1, prev, c :: cs =>
    match tryAt prev (c :: cs) with
    | some (k + 1) =>
      let m := (c :: cs).take (k + 1)
      m :: findPosF tryAt fuel m.getLast? ((c :: cs).drop (k + 1))
    | _ => findPosF tryAt fuel (some c) cs

/-- Python `pattern.findall(s)` for patterns without groups that never match
empty text. -/
def reFindall (tryAt : Option Char → List Char → Option Nat) (s : List Char) :
    List (List Char) :=
  findPosF tryAt s.length none s

/-- Fuel-driven scanner for Python `str.replace(pat, rep)` (all
non-overlapping occurrences, left to right).  The `pat ≠ []` guard mirrors
that the source only ever replaces non-empty matched names. -/
def replaceAllF (pat rep : List Char) : Nat → List Char → List Char
  | 0, s => s
  | _ + 1, [] => []
  | fuel + 1, c :: cs =>
    if pat.isPrefixOf (c :: cs) && !pat.isEmpty then
      rep ++ replaceAllF pat rep fuel ((c :: cs).drop pat.length)
    else c :: replaceAllF pat rep fuel cs

/-- Python `s.replace(pat, rep)`. -/
def replaceAll (pat rep s : List Char) : List Char := replaceAllF pat rep s.length s

/-!
## Detector functions (`is_*`, `extract_names`)
-/

/-- `PIIDetector.is_phone_number`: the 10-digit pattern is searched in the
text with `-`, whitespace, `(`, `)` removed; the three phone variations are
searched in the stripped text. -/
def is_phone_number (text : List Char) : Bool :=
  if text.isEmpty then false
  else
    let str_text := strip text
    let cleaned := str_text.filter (fun c => !(c == '-' || isSpaceC c || c == '(' || c == ')'))
    if reSearch tryPhone10 cleaned then true
    else reSearch tryPlus91 str_text || reSearch try91 str_text || reSearch try789 str_text

/-- `PIIDetector.is_aadhar_number`: search the Aadhar pattern in the stripped
text, else test `^[2-9]\d{11}$` on the text with all whitespace removed (the
cleaned text contains no newline, so `$` is exactly end-of-string). -/
def is_aadhar_number (text : List Char) : Bool :=
  if text.isEmpty then false
  else
    let str_text := strip text
    if reSearch tryAadhar str_text then true
    else
      let cleaned := str_text.filter (fun c => !isSpaceC c)
      cleaned.length == 12
        && (match cleaned.head? with
            | some c => decide ('2' ≤ c) && decide (c ≤ '9')
            | none => false)
        && (cleaned.drop 1).all Char.isDigit

/-- `PIIDetector.is_passport_number`. -/
def is_passport_number (text : List Char) : Bool :=
  if text.isEmpty then false else reSearch tryPassport (strip text)

/-- `PIIDetector.is_upi_id`. -/
def is_upi_id (text : List Char) : Bool :=
  if text.isEmpty then false else reSearch tryUpi (strip text)

/-- `PIIDetector.is_email`. -/
def is_email (text : List Char) : Bool :=
  if text.isEmpty then false else reSearch tryEmail (strip text)

/-- The stoplist of geographic tokens skipped by `extract_names`. -/
def stopWords : List (List Char) :=
  ["new".toList, "york".toList, "san".toList, "los".toList, "las".toList,
   "north".toList, "south".toList, "east".toList, "west".toList]

/-- The filter applied to each matched run in `extract_names`:
`len(words) >= 2 and not any(word.lower() in [...] for word in words)`. -/
def nameKeepPred (m : List Char) : Bool :=
  decide (2 ≤ (splitWS m).length)
    && !((splitWS m).any (fun w => stopWords.contains (lowerStr w)))

/-- `PIIDetector.extract_names`: find all `Firstname Lastname` shaped runs and
keep those with at least two words none of which (lower-cased) is a stop
word. -/
def extract_names (text : List Char) : List (List Char) :=
  if text.isEmpty then []
  else (reFindall tryName (strip text)).filter nameKeepPred

/-!
## Redaction (`redact_text`)
-/

/-- Replacement for a phone-variation match:
`m[:2] + 'X' * (len(m) - 4) + m[-2:]`. -/
def phoneVarRepl (m : List Char) : List Char :=
  m.take 2 ++ List.replicate (m.length - 4) 'X' ++ lastN 2 m

/-- Replacement for a `\b\d{10}\b` match: `m[:2] + 'X' * 6 + m[-2:]`. -/
def phone10Repl (m : List Char) : List Char :=
  m.take 2 ++ List.replicate 6 'X' ++ lastN 2 m

/-- Replacement for an Aadhar match (`redact_aadhar` in the source): a match
containing a literal space becomes `'XXXX XXXX ' + last4`, otherwise
`'XXXXXXXX' + last4`. -/
def aadharRepl (m : List Char) : List Char :=
  if m.contains ' ' then "XXXX XXXX ".toList ++ lastN 4 m
  else "XXXXXXXX".toList ++ lastN 4 m

/-- Replacement for a passport match: the fixed sentinel. -/
def passportRepl (_ : List Char) : List Char := "[REDACTED_PASSPORT]".toList

/-- Python `m.split('@')` on a match string. -/
def atParts (m : List Char) : List (List Char) := List.splitOnP (fun c => c == '@') m

/-- Replacement for a UPI match:
`m.split('@')[0][:3] + 'XXX@' + m.split('@')[1]`. -/
def upiRepl (m : List Char) : List Char :=
  ((atParts m).headD []).take 3 ++ "XXX@".toList ++ (atParts m).getD 1 []

/-- Replacement for an email match (`redact_email` in the source): keep the
first 3 characters of the local part only when it is longer than 3. -/
def emailRepl (m : List Char) : List Char :=
  if 3 < ((atParts m).headD []).length then
    ((atParts m).headD []).take 3 ++ "XXX@".toList ++ (atParts m).getD 1 []
  else "XXX@".toList ++ (atParts m).getD 1 []

/-- Mask for one extracted name: `parts[0][0] + 'XXX ' + parts[-1][0] + 'XXX'`
when it has at least two words, else `'XXXX'`.  The defaults are unreachable
because extracted names always have two non-empty words. -/
def nameMasked (name : List Char) : List Char :=
  if 2 ≤ (splitWS name).length then
    ((splitWS name).headD []).take 1 ++ "XXX ".toList
      ++ ((splitWS name).getLastD []).take 1 ++ "XXX".toList
  else "XXXX".toList

/-- `PIIDetector.redact_text`: strip the text, then apply the entity type's
substitutions (for `phone`, the three variations in order and then the bare
10-digit pattern; for `name`, sequential whole-string replacement of each
extracted name). -/
def redact_text (text : List Char) (entity_type : String) : List Char :=
  if text.isEmpty then text
  else
    let redacted := strip text
    if entity_type == "phone" then
      reSub tryPhone10 phone10Repl
        (reSub try789 phoneVarRepl (reSub try91 phoneVarRepl (reSub tryPlus91 phoneVarRepl redacted)))
    else if entity_type == "aadhar" then reSub tryAadhar aadharRepl redacted
    else if entity_type == "passport" then reSub tryPassport passportRepl redacted
    else if entity_type == "upi" then reSub tryUpi upiRepl redacted
    else if entity_type == "email" then reSub tryEmail emailRepl redacted
    else if entity_type == "name" then
      (extract_names redacted).foldl (fun acc name => replaceAll name (nameMasked name) acc) redacted
    else redacted

/-!
## The record analyzer (`analyze_record`)

A record is an ordered mapping (Python `dict`) from string keys to scalar
values; we model it as an association list, with the source's dict
semantics recovered under a `Nodup` hypothesis on the keys where needed.
The loop body of `analyze_record` touches each field independently (the
only cross-field state, `has_pii` and the five buckets, is accumulated
commutatively), so the scan is modelled as a map over the fields plus one
`any` and five ordered `filter`s; the `elif` chains are mirrored by the
negated guards in the helper predicates.
-/

/-- A scalar value of a record: JSON null, string, or number. -/
inductive Value where
  | vnull : Value
  | vstr : List Char → Value
  | vint : Int → Value
  deriving DecidableEq

/-- Ordered record: association list from field key to scalar value. -/
abbrev Record := List (String × Value)

/-- The skip guard `value is None or value == ''` of the field loop. -/
def emptyV : Value → Bool
  | .vnull => true
  | .vstr s => s.isEmpty
  | .vint _ => false

/-- Python `str(value)`. -/
def pyStr : Value → List Char
  | .vnull => "None".toList
  | .vstr s => s
  | .vint n => (toString n).toList

/-- `str_value = str(value).strip()` of the field loop. -/
def str_value_of (v : Value) : List Char := strip (pyStr v)

/-- Whether the standalone `if`/`elif` chain of the field loop fires for this
key and (non-empty) value, i.e. the field sets `has_pii = True` directly. -/
def standalone_hit (key : String) (v : Value) : Bool :=
  let sv := str_value_of v
  (key == "phone" || key == "contact" || is_phone_number sv)
    || (key == "aadhar" || is_aadhar_number sv)
    || (key == "passport" || is_passport_number sv)
    || (key == "upi_id" || is_upi_id sv)

/-- The `redacted_value` the field loop stores for a non-empty value: the
first standalone branch that fires redacts with its category, else the
stripped string is kept. -/
def scanString (key : String) (v : Value) : List Char :=
  let sv := str_value_of v
  if key == "phone" || key == "contact" || is_phone_number sv then redact_text sv "phone"
  else if key == "aadhar" || is_aadhar_number sv then redact_text sv "aadhar"
  else if key == "passport" || is_passport_number sv then redact_text sv "passport"
  else if key == "upi_id" || is_upi_id sv then redact_text sv "upi"
  else sv

/-- The entry `analyze_record` stores in `redacted_data` for one field during
the scan: empty/null values pass through, others become the (possibly
standalone-redacted) string. -/
def scanPair (kv : String × Value) : String × Value :=
  (kv.1, if emptyV kv.2 then kv.2 else Value.vstr (scanString kv.1 kv.2))

/-- `'name' in data`. -/
def hasNameKey (data : Record) : Bool := data.any (fun p => p.1 == "name")

/-- Condition of the first combinatorial branch:
`key == 'name' or (key in ['first_name','last_name'] and 'name' not in data)`. -/
def nameBranchCond (data : Record) (key : String) : Bool :=
  key == "name" || ((key == "first_name" || key == "last_name") && !hasNameKey data)

/-- Condition of the email branch test:
`key == 'email' or self.is_email(str_value)`. -/
def emailCond (kv : String × Value) : Bool :=
  kv.1 == "email" || is_email (str_value_of kv.2)

/-- Condition of the address branch test:
`key in ['address','city','pin_code','state']`. -/
def addressCond (kv : String × Value) : Bool :=
  kv.1 == "address" || kv.1 == "city" || kv.1 == "pin_code" || kv.1 == "state"

/-- Whether this field's key is appended to the `name` bucket (the branch is
taken and its inner `if` holds). -/
def inNameBucket (data : Record) (kv : String × Value) : Bool :=
  !emptyV kv.2 && nameBranchCond data kv.1
    && (!(extract_names (str_value_of kv.2)).isEmpty
        || kv.1 == "first_name" || kv.1 == "last_name")

/-- Whether this field's key is appended to the `email` bucket (`elif`: the
name branch condition must be false). -/
def inEmailBucket (data : Record) (kv : String × Value) : Bool :=
  !emptyV kv.2 && !nameBranchCond data kv.1 && emailCond kv

/-- Whether this field's key is appended to the `address` bucket. -/
def inAddressBucket (data : Record) (kv : String × Value) : Bool :=
  !emptyV kv.2 && !nameBranchCond data kv.1 && !emailCond kv && addressCond kv

/-- Whether this field's key is appended to the `device_id` bucket. -/
def inDeviceBucket (data : Record) (kv : String × Value) : Bool :=
  !emptyV kv.2 && !nameBranchCond data kv.1 && !emailCond kv && !addressCond kv
    && kv.1 == "device_id"

/-- Whether this field's key is appended to the `ip_address` bucket. -/
def inIpBucket (data : Record) (kv : String × Value) : Bool :=
  !emptyV kv.2 && !nameBranchCond data kv.1 && !emailCond kv && !addressCond kv
    && kv.1 == "ip_address"

/-- The `name` bucket of `combinatorial_elements` after the scan. -/
def nameBucket (data : Record) : List String :=
  (data.filter (inNameBucket data)).map Prod.fst

/-- The `email` bucket after the scan. -/
def emailBucket (data : Record) : List String :=
  (data.filter (inEmailBucket data)).map Prod.fst

/-- The `address` bucket after the scan. -/
def addressBucket (data : Record) : List String :=
  (data.filter (inAddressBucket data)).map Prod.fst

/-- The `device_id` bucket after the scan. -/
def deviceBucket (data : Record) : List String :=
  (data.filter (inDeviceBucket data)).map Prod.fst

/-- The `ip_address` bucket after the scan. -/
def ipBucket (data : Record) : List String :=
  (data.filter (inIpBucket data)).map Prod.fst

/-- `combinatorial_count`: the number of non-empty buckets. -/
def bucketCount (data : Record) : Nat :=
  [nameBucket data, emailBucket data, addressBucket data,
   deviceBucket data, ipBucket data].countP (fun l => !l.isEmpty)

/-- The inner `if`/`elif` chain of the combinatorial redaction pass: how the
value of a bucketed field is rewritten for bucket `t` (`name` and `email`
re-redact the current value, `device_id`/`ip_address` write a sentinel, any
other bucket leaves the value as is). -/
def updFn (t : String) (cur : Value) : Value :=
  if t == "name" then Value.vstr (redact_text (pyStr cur) "name")
  else if t == "email" then Value.vstr (redact_text (pyStr cur) "email")
  else if t == "device_id" || t == "ip_address" then
    Value.vstr ("[REDACTED_".toList ++ t.toList.map Char.toUpper ++ "]".toList)
  else cur

/-- Python dict assignment `redacted_data[field] = ...` on the association
list: rewrite the value at key `k` (all entries with that key; a dict has
exactly one). -/
def updateKey (rd : List (String × Value)) (k : String) (f : Value → Value) :
    List (String × Value) :=
  rd.map (fun p => if p.1 == k then (p.1, f p.2) else p)

/-- One bucket of the combinatorial redaction pass:
`for field in fields: if field in redacted_data: ...`. -/
def applyBucket (t : String) (fields : List String) (rd : List (String × Value)) :
    List (String × Value) :=
  fields.foldl
    (fun acc field =>
      if acc.any (fun p => p.1 == field) then updateKey acc field (updFn t) else acc)
    rd

/-- `PIIDetector.analyze_record`: scan every field, then if at least two
combinatorial buckets are non-empty, set `has_pii` and run the redaction
pass over the buckets in dict order (`name`, `email`, `address`,
`device_id`, `ip_address`). -/
def analyze_record (data : Record) : Bool × List (String × Value) :=
  let scanned := data.map scanPair
  let scan_pii := data.any (fun kv => !emptyV kv.2 && standalone_hit kv.1 kv.2)
  if 2 ≤ bucketCount data then
    (true,
      applyBucket "ip_address" (ipBucket data)
        (applyBucket "device_id" (deviceBucket data)
          (applyBucket "address" (addressBucket data)
            (applyBucket "email" (emailBucket data)
              (applyBucket "name" (nameBucket data) scanned)))))
  else (scan_pii, scanned)

/-- Value stored under key `k` in an association list, if any. -/
def lookupKey (rd : List (String × Value)) (k : String) : Option Value :=
  (rd.find? (fun p => p.1 == k)).map Prod.snd

/-!
## Helper lemmas
-/

theorem ne_nil_of_append_left {a b : List Char} (h : a ≠ []) : a ++ b ≠ [] := by
  intro h0
  exact h (List.append_eq_nil.mp h0).1

theorem ne_nil_of_append_right {a b : List Char} (h : b ≠ []) : a ++ b ≠ [] := by
  intro h0
  exact h (List.append_eq_nil.mp h0).2

theorem take_two_ne_nil {m : List Char} (h : m ≠ []) : m.take 2 ≠ [] := by
  cases m with
  | nil => exact absurd rfl h
  | cons c cs => simp [List.take_succ_cons]

theorem strip_eq_nil_iff (s : List Char) : strip s = [] ↔ ∀ c ∈ s, isSpaceC c = true := by
  unfold strip
  rw [List.reverse_eq_nil_iff, List.dropWhile_eq_nil_iff]
  constructor
  · intro h c hc
    have hsplit := List.takeWhile_append_dropWhile isSpaceC s
    rw [← hsplit] at hc
    rcases List.mem_append.mp hc with h1 | h1
    · exact List.mem_takeWhile_imp h1
    · exact h c (List.mem_reverse.mpr h1)
  · intro h c hc
    exact h c ((List.dropWhile_sublist (p := isSpaceC) (l := s)).subset (List.mem_reverse.mp hc))

theorem phoneVarRepl_ne_nil {m : List Char} (h : m ≠ []) : phoneVarRepl m ≠ [] :=
  ne_nil_of_append_left (ne_nil_of_append_left (take_two_ne_nil h))

theorem phone10Repl_ne_nil {m : List Char} (_ : m ≠ []) : phone10Repl m ≠ [] := by
  intro h0
  have h1 := (List.append_eq_nil.mp (List.append_eq_nil.mp h0).1).2
  exact (by decide : (List.replicate 6 'X') ≠ []) h1

theorem aadharRepl_ne_nil {m : List Char} (_ : m ≠ []) : aadharRepl m ≠ [] := by
  unfold aadharRepl
  split
  · exact ne_nil_of_append_left (by decide)
  · exact ne_nil_of_append_left (by decide)

theorem passportRepl_ne_nil {m : List Char} (_ : m ≠ []) : passportRepl m ≠ [] := by
  unfold passportRepl
  decide

theorem upiRepl_ne_nil {m : List Char} (_ : m ≠ []) : upiRepl m ≠ [] := by
  intro h0
  have h1 := (List.append_eq_nil.mp (List.append_eq_nil.mp h0).1).2
  exact (by decide : ("XXX@".toList : List Char) ≠ []) h1

theorem emailRepl_ne_nil {m : List Char} (_ : m ≠ []) : emailRepl m ≠ [] := by
  unfold emailRepl
  split
  · intro h0
    have h1 := (List.append_eq_nil.mp (List.append_eq_nil.mp h0).1).2
    exact (by decide : ("XXX@".toList : List Char) ≠ []) h1
  · exact ne_nil_of_append_left (by decide)

theorem nameMasked_ne_nil (n : List Char) : nameMasked n ≠ [] := by
  unfold nameMasked
  split
  · intro h0
    exact (by decide : ("XXX".toList : List Char) ≠ []) (List.append_eq_nil.mp h0).2
  · decide

theorem reSub_ne_nil (tryAt : Option Char → List Char → Option Nat)
    (repl : List Char → List Char) (hrepl : ∀ m, m ≠ [] → repl m ≠ [])
    {s : List Char} (hs : s ≠ []) : reSub tryAt repl s ≠ [] := by
  cases s with
  | nil => exact absurd rfl hs
  | cons c cs =>
    simp only [reSub, List.length_cons]
    simp only [subPosF]
    cases h : tryAt none (c :: cs) with
    | none => simp
    | some k =>
      cases k with
      | zero => simp
      | succ k =>
        refine ne_nil_of_append_left (hrepl _ ?_)
        simp [List.take_succ_cons]

theorem replaceAll_ne_nil (pat rep : List Char) (hrep : rep ≠ [])
    {s : List Char} (hs : s ≠ []) : replaceAll pat rep s ≠ [] := by
  cases s with
  | nil => exact absurd rfl hs
  | cons c cs =>
    simp only [replaceAll, List.length_cons]
    simp only [replaceAllF]
    split
    · exact ne_nil_of_append_left hrep
    · simp

theorem foldl_replace_ne_nil (names : List (List Char)) (acc : List Char) (hacc : acc ≠ []) :
    names.foldl (fun acc name => replaceAll name (nameMasked name) acc) acc ≠ [] := by
  induction names generalizing acc with
  | nil => exact hacc
  | cons n ns ih => exact ih _ (replaceAll_ne_nil n (nameMasked n) (nameMasked_ne_nil n) hacc)

theorem contains_of_mem {c : Char} {l : List Char} (h : c ∈ l) : l.contains c = true := by
  simp only [List.contains]
  exact List.elem_iff.mpr h

theorem not_contains_of_all_digit {l : List Char} (hd : ∀ c ∈ l, c.isDigit = true) :
    l.contains ' ' = false := by
  by_contra h
  have h1 : l.contains ' ' = true := by
    cases h2 : l.contains ' ' with
    | true => rfl
    | false => exact absurd h2 h
  have h3 : (' ' : Char) ∈ l := List.elem_iff.mp h1
  have := hd ' ' h3
  simp at this

/-!
## Claims C7, C8, C10 (redactor behaviour)
-/

/-- C7, claim as stated is false: for the email `ab@x.com`, whose local part
`ab` has at most 3 characters, the mask drops the local part entirely and
produces `XXX@x.com`, not `abXXX@x.com`. -/
theorem C7_counterexample :
    redact_text "ab@x.com".toList "email" = "XXX@x.com".toList
      ∧ redact_text "ab@x.com".toList "email" ≠ "abXXX@x.com".toList := by
  constructor
  · decide
  · decide

/-- C7 amended: for every email match whose local part has at most 3
characters, the mask discards the local part and returns `XXX@` followed by
the unchanged domain. -/
theorem C7_amended (m p q : List Char) (hsplit : atParts m = [p, q])
    (hlen : p.length ≤ 3) : emailRepl m = "XXX@".toList ++ q := by
  unfold emailRepl
  rw [hsplit]
  have hcond : ¬ (3 < ((([p, q] : List (List Char)).headD []).length)) := by
    simp only [List.headD]
    omega
  rw [if_neg hcond]
  simp

/-- C7 witness: the amended statement evaluated on `ab@x.com`. -/
theorem C7_witness :
    atParts "ab@x.com".toList = ["ab".toList, "x.com".toList]
      ∧ emailRepl "ab@x.com".toList = "XXX@".toList ++ "x.com".toList :=
  ⟨by decide,
    C7_amended "ab@x.com".toList "ab".toList "x.com".toList (by decide) (by decide)⟩

/-- C8, claim as stated is false: the Aadhar value `2345 67890123` matches the
pattern with only the first optional space present, and the mask rewrites it
to the fixed form `XXXX XXXX 0123`, which has 14 characters where the input
has 13 — the original grouping (4 + 8) is not preserved. -/
theorem C8_counterexample :
    redact_text "2345 67890123".toList "aadhar" = "XXXX XXXX 0123".toList
      ∧ (redact_text "2345 67890123".toList "aadhar").length
          ≠ ("2345 67890123".toList : List Char).length := by
  constructor
  · decide
  · decide

/-- C8 amended: the mask keeps exactly the last 4 digits; a match containing
any space (both optional spaces or only one) is rewritten to the fixed
spaced form `XXXX XXXX ` + last group, while a fully contiguous match is
rewritten to the contiguous form `XXXXXXXX` + last group. -/
theorem C8_amended (g1 g2 g3 : List Char)
    (h1 : g1.length = 4) (h2 : g2.length = 4) (h3 : g3.length = 4)
    (hd1 : ∀ c ∈ g1, c.isDigit = true) (hd2 : ∀ c ∈ g2, c.isDigit = true)
    (hd3 : ∀ c ∈ g3, c.isDigit = true) :
    aadharRepl (g1 ++ [' '] ++ g2 ++ g3) = "XXXX XXXX ".toList ++ g3
      ∧ aadharRepl (g1 ++ g2 ++ g3) = "XXXXXXXX".toList ++ g3 := by
  constructor
  · unfold aadharRepl
    have hc : ((g1 ++ [' '] ++ g2 ++ g3).contains ' ') = true := by
      refine contains_of_mem ?_
      refine List.mem_append.mpr (Or.inl ?_)
      refine List.mem_append.mpr (Or.inl ?_)
      exact List.mem_append.mpr (Or.inr (by simp))
    rw [if_pos hc]
    have hA : ((g1 ++ [' ']) ++ g2).length = 9 := by
      simp [h1, h2]
    have hlast : lastN 4 (((g1 ++ [' ']) ++ g2) ++ g3) = g3 := by
      unfold lastN
      have hlen : ((((g1 ++ [' ']) ++ g2) ++ g3).length) = 13 := by
        simp [h1, h2, h3]
      rw [hlen]
      have h9 : (13 - 4 : Nat) = ((g1 ++ [' ']) ++ g2).length := by rw [hA]
      rw [h9, List.drop_left]
    rw [hlast]
  · unfold aadharRepl
    have hc : ((g1 ++ g2 ++ g3).contains ' ') = false := by
      refine not_contains_of_all_digit ?_
      intro c hcmem
      rcases List.mem_append.mp hcmem with hx | hx
      · rcases List.mem_append.mp hx with hy | hy
        · exact hd1 c hy
        · exact hd2 c hy
      · exact hd3 c hx
    have hc2 : ¬ ((g1 ++ g2 ++ g3).contains ' ' = true) := by
      rw [hc]
      simp
    rw [if_neg hc2]
    have hA : (g1 ++ g2).length = 8 := by simp [h1, h2]
    have hlast : lastN 4 ((g1 ++ g2) ++ g3) = g3 := by
      unfold lastN
      have hlen : (((g1 ++ g2) ++ g3).length) = 12 := by simp [h1, h2, h3]
      rw [hlen]
      have h8 : (12 - 4 : Nat) = (g1 ++ g2).length := by rw [hA]
      rw [h8, List.drop_left]
    rw [hlast]

/-- C8 witness: the amended statement evaluated on the groups `2345`, `6789`,
`0123`. -/
theorem C8_witness :
    aadharRepl ("2345".toList ++ [' '] ++ "6789".toList ++ "0123".toList)
        = "XXXX XXXX ".toList ++ "0123".toList
      ∧ aadharRepl ("2345".toList ++ "6789".toList ++ "0123".toList)
        = "XXXXXXXX".toList ++ "0123".toList :=
  C8_amended "2345".toList "6789".toList "0123".toList
    (by decide) (by decide) (by decide) (by decide) (by decide) (by decide)

/-- C10, claim as stated is false: on the non-empty, whitespace-only input
`"   "`, the mask strips the text to the empty string and returns it, so
the result is empty for a non-empty input. -/
theorem C10_counterexample :
    redact_text "   ".toList "phone" = [] ∧ ("   ".toList : List Char) ≠ [] := by
  constructor
  · decide
  · decide

/-- C10 amended: the mask is a total function, and for every input containing
at least one non-whitespace character (and every entity type) its result is
non-empty; only whitespace-only inputs are reduced to the empty string by
the initial strip. -/
theorem C10_amended (text : List Char) (entity_type : String)
    (h : ∃ c ∈ text, isSpaceC c = false) :
    redact_text text entity_type ≠ [] := by
  obtain ⟨c, hc, hcs⟩ := h
  have htext : ¬ (text.isEmpty = true) := by
    cases text with
    | nil => cases hc
    | cons a as => simp
  have hstrip : strip text ≠ [] := by
    intro h0
    have := (strip_eq_nil_iff text).mp h0 c hc
    rw [this] at hcs
    cases hcs
  unfold redact_text
  rw [if_neg htext]
  split
  · exact reSub_ne_nil _ _ (fun m hm => phone10Repl_ne_nil hm)
      (reSub_ne_nil _ _ (fun m hm => phoneVarRepl_ne_nil hm)
        (reSub_ne_nil _ _ (fun m hm => phoneVarRepl_ne_nil hm)
          (reSub_ne_nil _ _ (fun m hm => phoneVarRepl_ne_nil hm) hstrip)))
  · split
    · exact reSub_ne_nil _ _ (fun m hm => aadharRepl_ne_nil hm) hstrip
    · split
      · exact reSub_ne_nil _ _ (fun m hm => passportRepl_ne_nil hm) hstrip
      · split
        · exact reSub_ne_nil _ _ (fun m hm => upiRepl_ne_nil hm) hstrip
        · split
          · exact reSub_ne_nil _ _ (fun m hm => emailRepl_ne_nil hm) hstrip
          · split
            · exact foldl_replace_ne_nil _ _ hstrip
            · exact hstrip

/-- C10 witness: the amended statement evaluated at the input `" a "` and the
`phone` entity type. -/
theorem C10_witness :
    (∃ c ∈ (" a ".toList : List Char), isSpaceC c = false)
      ∧ redact_text " a ".toList "phone" ≠ [] :=
  ⟨by decide, C10_amended " a ".toList "phone" (by decide)⟩

/-!
## Claims C2, C4, C5 (detector behaviour)
-/

/-- C2, claim as stated is false: the PaymentHandle (UPI) detector does fire
on the standard email `rahul@gmail.com` — its pattern matches the substring
`rahul@gmail` because a word boundary sits before the dot — so a record
whose only field holds that value under the neutral key `contact_info`
yields `has_pii = true` with the field redacted by the UPI mask. -/
theorem C2_counterexample :
    is_upi_id "rahul@gmail.com".toList = true
      ∧ (analyze_record [("contact_info", Value.vstr "rahul@gmail.com".toList)]).1 = true
      ∧ lookupKey (analyze_record [("contact_info", Value.vstr "rahul@gmail.com".toList)]).2
          "contact_info" = some (Value.vstr "rahXXX@gmail.com".toList) :=
  ⟨by decide, by decide, by decide⟩

/-- C2 amended: the PaymentHandle detector fires whenever the value contains
`localpart@` followed by an alphabetic label of 2–64 letters ending at a
word boundary — which includes standard emails whose first domain label has
at least two letters, such as `rahul@gmail.com`; it does not fire when no
such label exists, e.g. `rahul@x.com` (single-letter label), and a record
whose only field is `rahul@x.com` yields `has_pii = false` with the field
unredacted. -/
theorem C2_amended :
    is_upi_id "rahul@gmail.com".toList = true
      ∧ is_upi_id "rahul@x.com".toList = false
      ∧ analyze_record [("email", Value.vstr "rahul@x.com".toList)]
          = (false, [("email", Value.vstr "rahul@x.com".toList)]) :=
  ⟨by decide, by decide, by decide⟩

/-- C4, claim as stated is false: the value `John Smith` contains a detected
two-capitalized-word run, yet under the key `bio` the field is not added to
the Name bucket (the bucket is key-gated), and the single-field record is
not flagged. -/
theorem C4_counterexample :
    extract_names "John Smith".toList = ["John Smith".toList]
      ∧ nameBucket [("bio", Value.vstr "John Smith".toList)] = []
      ∧ (analyze_record [("bio", Value.vstr "John Smith".toList)]).1 = false :=
  ⟨by decide, by decide, by decide⟩

/-- C4 amended: a field's key enters the Name bucket only when the key is
`name`, `first_name` or `last_name`; and for the key `name` with a
non-empty value containing a detected name run, the Name bucket does
receive the key. -/
theorem C4_amended :
    (∀ (data : Record) (k : String), k ∈ nameBucket data →
        k = "name" ∨ k = "first_name" ∨ k = "last_name")
      ∧ (∀ (data : Record) (v : Value), ("name", v) ∈ data → emptyV v = false →
          (extract_names (str_value_of v)).isEmpty = false → "name" ∈ nameBucket data) := by
  constructor
  · intro data k hk
    unfold nameBucket at hk
    rcases List.mem_map.mp hk with ⟨kv, hkvf, hfst⟩
    have hpred := (List.mem_filter.mp hkvf).2
    unfold inNameBucket at hpred
    simp only [Bool.and_eq_true] at hpred
    obtain ⟨⟨_, hbr⟩, _⟩ := hpred
    unfold nameBranchCond at hbr
    simp only [Bool.or_eq_true, Bool.and_eq_true, beq_iff_eq] at hbr
    rcases hbr with h2 | ⟨h3 | h3, _⟩
    · left
      rw [← hfst, h2]
    · right; left
      rw [← hfst, h3]
    · right; right
      rw [← hfst, h3]
  · intro data v hmem hne hextr
    unfold nameBucket
    refine List.mem_map.mpr ⟨("name", v), ?_, rfl⟩
    refine List.mem_filter.mpr ⟨hmem, ?_⟩
    unfold inNameBucket nameBranchCond
    simp [hne, hextr]

/-- C4 witness: the amended statement evaluated on the record
`[("name", "Rahul Sharma")]`. -/
theorem C4_witness :
    ("name" = "name" ∨ "name" = "first_name" ∨ "name" = "last_name")
      ∧ "name" ∈ nameBucket [("name", Value.vstr "Rahul Sharma".toList)] :=
  ⟨C4_amended.1 [("name", Value.vstr "Rahul Sharma".toList)] "name" (by decide),
   C4_amended.2 [("name", Value.vstr "Rahul Sharma".toList)]
     (Value.vstr "Rahul Sharma".toList) (by decide) (by decide) (by decide)⟩

/-- C5, claim as stated is false: the run `York Smith` is matched by the name
pattern and only `York` is in the geographic stoplist, yet it is excluded —
the source skips a run when ANY of its words is a stop word, not only when
all of them are. -/
theorem C5_counterexample :
    reFindall tryName (strip "York Smith".toList) = ["York Smith".toList]
      ∧ extract_names "York Smith".toList = [] :=
  ⟨by decide, by decide⟩

/-- C5 amended: a two-capitalized-word run is excluded from Name detection
whenever at least one of its words is in the geographic stoplist; every
detected name therefore contains no stoplist word at all. -/
theorem C5_amended (text m : List Char) (hm : m ∈ extract_names text)
    (w : List Char) (hw : w ∈ splitWS m) :
    stopWords.contains (lowerStr w) = false := by
  unfold extract_names at hm
  by_cases he : text.isEmpty = true
  · rw [if_pos he] at hm
    cases hm
  · rw [if_neg he] at hm
    have hpred := (List.mem_filter.mp hm).2
    unfold nameKeepPred at hpred
    simp only [Bool.and_eq_true] at hpred
    obtain ⟨_, h2⟩ := hpred
    have hany : (splitWS m).any (fun w => stopWords.contains (lowerStr w)) = false := by
      simpa using h2
    simpa using List.any_eq_false.mp hany w hw

/-- C5 witness: the amended statement evaluated on the detected name
`Rahul Sharma` and its word `Rahul`. -/
theorem C5_witness : stopWords.contains (lowerStr "Rahul".toList) = false :=
  C5_amended "Rahul Sharma".toList "Rahul Sharma".toList (by decide)
    "Rahul".toList (by decide)

/-!
## Association-list lemmas for the analyzer
-/

theorem find_key_nodup {data : Record} {k : String} {v : Value}
    (hnd : (data.map Prod.fst).Nodup) (hmem : (k, v) ∈ data) :
    data.find? (fun p => p.1 == k) = some (k, v) := by
  induction data with
  | nil => cases hmem
  | cons hd tl ih =>
    simp only [List.map_cons, List.nodup_cons] at hnd
    by_cases hh : (hd.1 == k) = true
    · rw [List.find?_cons_of_pos (p := fun p : String × Value => p.1 == k) tl hh]
      rcases List.mem_cons.mp hmem with heq | htl
      · rw [← heq]
      · exfalso
        have hkmem : k ∈ tl.map Prod.fst := List.mem_map.mpr ⟨(k, v), htl, rfl⟩
        have hk : hd.1 = k := beq_iff_eq.mp hh
        rw [hk] at hnd
        exact hnd.1 hkmem
    · rw [List.find?_cons_of_neg (p := fun p : String × Value => p.1 == k) tl hh]
      rcases List.mem_cons.mp hmem with heq | htl
      · exfalso
        apply hh
        rw [← heq]
        exact beq_iff_eq.mpr rfl
      · exact ih hnd.2 htl

theorem eq_val_of_nodup {data : Record} {k : String} {v w : Value}
    (hnd : (data.map Prod.fst).Nodup) (hv : (k, v) ∈ data) (hw : (k, w) ∈ data) :
    v = w := by
  have h1 := find_key_nodup hnd hv
  have h2 := find_key_nodup hnd hw
  rw [h1] at h2
  exact (Prod.mk.injEq _ _ _ _).mp (Option.some.inj h2) |>.2

theorem any_key_of_mem {rd : List (String × Value)} {k : String}
    (h : k ∈ rd.map Prod.fst) : rd.any (fun p => p.1 == k) = true := by
  rcases List.mem_map.mp h with ⟨p, hp, hfst⟩
  exact List.any_eq_true.mpr ⟨p, hp, beq_iff_eq.mpr hfst⟩

theorem keys_updateKey (rd : List (String × Value)) (k : String) (f : Value → Value) :
    (updateKey rd k f).map Prod.fst = rd.map Prod.fst := by
  induction rd with
  | nil => rfl
  | cons p ps ih =>
    simp only [updateKey, List.map_cons] at ih ⊢
    by_cases hp : (p.1 == k) = true
    · rw [if_pos hp, ih]
    · rw [if_neg hp, ih]

theorem lookup_updateKey (rd : List (String × Value)) (f k : String) (g : Value → Value) :
    lookupKey (updateKey rd f g) k
      = if f = k then (lookupKey rd k).map g else lookupKey rd k := by
  have hfst_upd : ∀ p : String × Value,
      (if p.1 == f then (p.1, g p.2) else p).1 = p.1 := by
    intro p
    split <;> rfl
  unfold lookupKey updateKey
  rw [List.find?_map]
  have hpe : ((fun p : String × Value => p.1 == k)
        ∘ fun p : String × Value => if p.1 == f then (p.1, g p.2) else p)
      = fun p : String × Value => p.1 == k := by
    funext p
    show ((if p.1 == f then (p.1, g p.2) else p).1 == k) = (p.1 == k)
    rw [hfst_upd p]
  rw [hpe]
  cases hf : rd.find? (fun p => p.1 == k) with
  | none => simp
  | some q =>
    have hq0 : (q.1 == k) = true :=
      List.find?_some (p := fun p : String × Value => p.1 == k) hf
    have hqk : q.1 = k := beq_iff_eq.mp hq0
    by_cases hfk : f = k
    · subst hfk
      simp [hq0]
      rw [if_pos hqk]
    · have hq : (q.1 == f) = false := by
        refine beq_eq_false_iff_ne.mpr ?_
        rw [hqk]
        exact fun he => hfk he.symm
      simp [hq, hfk]
      rw [if_neg (by rw [hqk]; exact fun he => hfk he.symm)]

theorem keys_applyBucket (t : String) (fs : List String) (rd : List (String × Value)) :
    (applyBucket t fs rd).map Prod.fst = rd.map Prod.fst := by
  induction fs generalizing rd with
  | nil => rfl
  | cons f fs ih =>
    rw [show applyBucket t (f :: fs) rd
        = applyBucket t fs
            (if rd.any (fun p => p.1 == f) then updateKey rd f (updFn t) else rd) from rfl]
    rw [ih]
    split
    · exact keys_updateKey rd f (updFn t)
    · rfl

theorem lookup_applyBucket_not_mem (t : String) (fs : List String)
    (rd : List (String × Value)) (k : String) (h : k ∉ fs) :
    lookupKey (applyBucket t fs rd) k = lookupKey rd k := by
  induction fs generalizing rd with
  | nil => rfl
  | cons f fs ih =>
    have hkf : f ≠ k := by
      intro he
      apply h
      rw [← he]
      exact List.mem_cons_self f fs
    rw [show applyBucket t (f :: fs) rd
        = applyBucket t fs
            (if rd.any (fun p => p.1 == f) then updateKey rd f (updFn t) else rd) from rfl]
    rw [ih _ (fun hk => h (List.mem_cons_of_mem f hk))]
    split
    · rw [lookup_updateKey, if_neg hkf]
    · rfl

theorem lookup_applyBucket_mem (t : String) (fs : List String)
    (rd : List (String × Value)) (k : String)
    (hnd : fs.Nodup) (hk : k ∈ fs) (hkeys : k ∈ rd.map Prod.fst) :
    lookupKey (applyBucket t fs rd) k = (lookupKey rd k).map (updFn t) := by
  induction fs generalizing rd with
  | nil => cases hk
  | cons f fs ih =>
    rw [show applyBucket t (f :: fs) rd
        = applyBucket t fs
            (if rd.any (fun p => p.1 == f) then updateKey rd f (updFn t) else rd) from rfl]
    simp only [List.nodup_cons] at hnd
    rcases List.mem_cons.mp hk with heq | htl
    · subst heq
      rw [if_pos (any_key_of_mem hkeys)]
      rw [lookup_applyBucket_not_mem _ _ _ _ hnd.1]
      rw [lookup_updateKey, if_pos rfl]
    · have hkf : f ≠ k := by
        intro he
        rw [he] at hnd
        exact hnd.1 htl
      have hstep : lookupKey
            (if rd.any (fun p => p.1 == f) then updateKey rd f (updFn t) else rd) k
          = lookupKey rd k := by
        split
        · rw [lookup_updateKey, if_neg hkf]
        · rfl
      have hkeys2 : k ∈ (if rd.any (fun p => p.1 == f)
            then updateKey rd f (updFn t) else rd).map Prod.fst := by
        split
        · rw [keys_updateKey]
          exact hkeys
        · exact hkeys
      rw [ih _ hnd.2 htl hkeys2, hstep]

theorem lookup_scanned {data : Record} {k : String} {v : Value}
    (hnd : (data.map Prod.fst).Nodup) (hmem : (k, v) ∈ data) :
    lookupKey (data.map scanPair) k
      = some (if emptyV v then v else Value.vstr (scanString k v)) := by
  unfold lookupKey
  rw [List.find?_map]
  have hpe : ((fun p : String × Value => p.1 == k) ∘ scanPair)
      = fun p : String × Value => p.1 == k := by
    funext p
    rfl
  rw [hpe, find_key_nodup hnd hmem]
  rfl

theorem mem_keyfilter_iff {data : Record} {k : String} {v : Value}
    (hnd : (data.map Prod.fst).Nodup) (hmem : (k, v) ∈ data)
    (p : String × Value → Bool) :
    k ∈ (data.filter p).map Prod.fst ↔ p (k, v) = true := by
  constructor
  · intro hk
    rcases List.mem_map.mp hk with ⟨kv, hkvf, hfst⟩
    rcases List.mem_filter.mp hkvf with ⟨hkvmem, hkvp⟩
    have hkv_eta : kv = (k, kv.2) := by
      rw [← hfst]
    have hv : v = kv.2 := eq_val_of_nodup hnd hmem (hkv_eta ▸ hkvmem)
    rw [show ((k, v) : String × Value) = kv from by rw [hkv_eta, hv]]
    exact hkvp
  · intro hp
    exact List.mem_map.mpr ⟨(k, v), List.mem_filter.mpr ⟨hmem, hp⟩, rfl⟩

theorem bucket_nodup {data : Record} (hnd : (data.map Prod.fst).Nodup)
    (p : String × Value → Bool) : ((data.filter p).map Prod.fst).Nodup :=
  List.Nodup.sublist (List.Sublist.map Prod.fst (List.filter_sublist data)) hnd

/-!
## Claims C3 and C9 (analyzer invariants)
-/

/-- C3, confirmed: `analyze_record` returns `has_pii = true` exactly when some
non-empty field fires a standalone detection (Phone, NationalID, Passport
or PaymentHandle, by key override or value pattern) or at least two
distinct combinatorial buckets are non-empty. -/
theorem C3_has_pii_iff (data : Record) :
    (analyze_record data).1 = true ↔
      (∃ kv ∈ data, emptyV kv.2 = false ∧ standalone_hit kv.1 kv.2 = true)
        ∨ 2 ≤ bucketCount data := by
  unfold analyze_record
  by_cases h : 2 ≤ bucketCount data
  · rw [if_pos h]
    simp [h]
  · rw [if_neg h]
    simp only [List.any_eq_true, Bool.and_eq_true, Bool.not_eq_true']
    constructor
    · intro hany
      exact Or.inl hany
    · intro hor
      rcases hor with hex | hcnt
      · exact hex
      · exact absurd hcnt h

/-- C9, confirmed: the redacted record returned by `analyze_record` has
exactly the key list of the input, in the same order. -/
theorem C9_keys_preserved (data : Record) :
    ((analyze_record data).2).map Prod.fst = data.map Prod.fst := by
  have hscan : (data.map scanPair).map Prod.fst = data.map Prod.fst := by
    rw [List.map_map]
    rfl
  unfold analyze_record
  split
  · rw [keys_applyBucket, keys_applyBucket, keys_applyBucket, keys_applyBucket,
      keys_applyBucket, hscan]
  · exact hscan

/-!
## Claims C6 and C1 (fields not redacted / combinatorial redaction pass)
-/

theorem scanString_of_no_hit {k : String} {v : Value}
    (h : standalone_hit k v = false) : scanString k v = str_value_of v := by
  unfold standalone_hit at h
  simp only [Bool.or_eq_false_iff] at h
  obtain ⟨⟨⟨⟨⟨h1, h2⟩, h3⟩, h4, h5⟩, h6, h7⟩, h8, h9⟩ := h
  unfold scanString
  simp [h1, h2, h3, h4, h5, h6, h7, h8, h9]

/-- C6, claim as stated is false: the field `note` with value `" hi "`
contributes to no detection (`has_pii = false`, every bucket empty), yet
its returned value is the stripped string `"hi"`, not the original
`" hi "`. -/
theorem C6_counterexample :
    analyze_record [("note", Value.vstr " hi ".toList)]
        = (false, [("note", Value.vstr "hi".toList)])
      ∧ Value.vstr "hi".toList ≠ Value.vstr " hi ".toList :=
  ⟨by decide, by decide⟩

/-- C6 amended: a non-empty field that contributes to no detection (no
standalone hit, not in any combinatorial bucket) is returned as the
stringified and whitespace-stripped input value `str(value).strip()`,
rather than exactly the input value. -/
theorem C6_amended (data : Record) (k : String) (v : Value)
    (hnd : (data.map Prod.fst).Nodup) (hmem : (k, v) ∈ data)
    (hne : emptyV v = false) (hsa : standalone_hit k v = false)
    (hb1 : k ∉ nameBucket data) (hb2 : k ∉ emailBucket data)
    (hb3 : k ∉ addressBucket data) (hb4 : k ∉ deviceBucket data)
    (hb5 : k ∉ ipBucket data) :
    lookupKey (analyze_record data).2 k = some (Value.vstr (str_value_of v)) := by
  have hscan : lookupKey (data.map scanPair) k = some (Value.vstr (scanString k v)) := by
    rw [lookup_scanned hnd hmem]
    simp [hne]
  simp only [analyze_record]
  split
  · rw [lookup_applyBucket_not_mem _ _ _ _ hb5,
      lookup_applyBucket_not_mem _ _ _ _ hb4,
      lookup_applyBucket_not_mem _ _ _ _ hb3,
      lookup_applyBucket_not_mem _ _ _ _ hb2,
      lookup_applyBucket_not_mem _ _ _ _ hb1,
      hscan, scanString_of_no_hit hsa]
  · rw [hscan, scanString_of_no_hit hsa]

/-- C6 witness: the amended statement evaluated on the record
`[("note", " hi ")]`. -/
theorem C6_witness :
    lookupKey (analyze_record [("note", Value.vstr " hi ".toList)]).2 "note"
      = some (Value.vstr (str_value_of (Value.vstr " hi ".toList))) :=
  C6_amended [("note", Value.vstr " hi ".toList)] "note" (Value.vstr " hi ".toList)
    (by decide) (by decide) (by decide) (by decide) (by decide) (by decide)
    (by decide) (by decide) (by decide)

/-- C1, claim as stated is false: in the record
`[("city", "Mumbai"), ("email", "rahul@x.com")]` two combinatorial buckets
(Address and Email) are non-empty, yet the field `city` of the Address
bucket is returned unchanged — the combinatorial redaction pass has no
branch for the Address bucket. -/
theorem C1_counterexample :
    2 ≤ bucketCount
        [("city", Value.vstr "Mumbai".toList), ("email", Value.vstr "rahul@x.com".toList)]
      ∧ "city" ∈ addressBucket
          [("city", Value.vstr "Mumbai".toList), ("email", Value.vstr "rahul@x.com".toList)]
      ∧ lookupKey (analyze_record
          [("city", Value.vstr "Mumbai".toList),
           ("email", Value.vstr "rahul@x.com".toList)]).2 "city"
        = some (Value.vstr "Mumbai".toList) :=
  ⟨by decide, by decide, by decide⟩

theorem updFn_device (cur : Value) :
    updFn "device_id" cur = Value.vstr "[REDACTED_DEVICE_ID]".toList := by
  unfold updFn
  rw [if_neg (by decide), if_neg (by decide), if_pos (by decide)]
  decide

theorem updFn_ip (cur : Value) :
    updFn "ip_address" cur = Value.vstr "[REDACTED_IP_ADDRESS]".toList := by
  unfold updFn
  rw [if_neg (by decide), if_neg (by decide), if_pos (by decide)]
  decide

/-- C1 amended: when at least two combinatorial buckets are non-empty, every
field in the Name and Email buckets has its category's mask applied to its
post-scan value, every field in the DeviceId and IpAddress buckets is
replaced by the fixed sentinel, but every field in the Address bucket keeps
its post-scan value unchanged (the redaction pass has no Address branch). -/
theorem C1_amended (data : Record)
    (hnd : (data.map Prod.fst).Nodup) (hcnt : 2 ≤ bucketCount data) :
    (∀ k v, (k, v) ∈ data → k ∈ nameBucket data →
        lookupKey (analyze_record data).2 k
          = some (Value.vstr (redact_text (scanString k v) "name")))
  ∧ (∀ k v, (k, v) ∈ data → k ∈ emailBucket data →
        lookupKey (analyze_record data).2 k
          = some (Value.vstr (redact_text (scanString k v) "email")))
  ∧ (∀ k v, (k, v) ∈ data → k ∈ deviceBucket data →
        lookupKey (analyze_record data).2 k
          = some (Value.vstr "[REDACTED_DEVICE_ID]".toList))
  ∧ (∀ k v, (k, v) ∈ data → k ∈ ipBucket data →
        lookupKey (analyze_record data).2 k
          = some (Value.vstr "[REDACTED_IP_ADDRESS]".toList))
  ∧ (∀ k v, (k, v) ∈ data → k ∈ addressBucket data →
        lookupKey (analyze_record data).2 k = some (Value.vstr (scanString k v))) := by
  have hana : (analyze_record data).2
      = applyBucket "ip_address" (ipBucket data)
          (applyBucket "device_id" (deviceBucket data)
            (applyBucket "address" (addressBucket data)
              (applyBucket "email" (emailBucket data)
                (applyBucket "name" (nameBucket data) (data.map scanPair))))) := by
    simp only [analyze_record]
    rw [if_pos hcnt]
  have hkeys_scanned : (data.map scanPair).map Prod.fst = data.map Prod.fst := by
    rw [List.map_map]
    rfl
  refine ⟨?_, ?_, ?_, ?_, ?_⟩
  · -- Name bucket
    intro k v hmem hbk
    have hpred : inNameBucket data (k, v) = true :=
      (mem_keyfilter_iff hnd hmem (inNameBucket data)).mp hbk
    have hparts := hpred
    unfold inNameBucket at hparts
    simp only [Bool.and_eq_true] at hparts
    obtain ⟨⟨hne, hbr⟩, _⟩ := hparts
    have hnotE : k ∉ emailBucket data := by
      intro hk
      have h2 := (mem_keyfilter_iff hnd hmem (inEmailBucket data)).mp hk
      rw [show inEmailBucket data (k, v) = false by simp [inEmailBucket, hbr]] at h2
      cases h2
    have hnotA : k ∉ addressBucket data := by
      intro hk
      have h2 := (mem_keyfilter_iff hnd hmem (inAddressBucket data)).mp hk
      rw [show inAddressBucket data (k, v) = false by simp [inAddressBucket, hbr]] at h2
      cases h2
    have hnotD : k ∉ deviceBucket data := by
      intro hk
      have h2 := (mem_keyfilter_iff hnd hmem (inDeviceBucket data)).mp hk
      rw [show inDeviceBucket data (k, v) = false by simp [inDeviceBucket, hbr]] at h2
      cases h2
    have hnotI : k ∉ ipBucket data := by
      intro hk
      have h2 := (mem_keyfilter_iff hnd hmem (inIpBucket data)).mp hk
      rw [show inIpBucket data (k, v) = false by simp [inIpBucket, hbr]] at h2
      cases h2
    have hkeys : k ∈ (data.map scanPair).map Prod.fst := by
      rw [hkeys_scanned]
      exact List.mem_map.mpr ⟨(k, v), hmem, rfl⟩
    rw [hana,
      lookup_applyBucket_not_mem _ _ _ _ hnotI,
      lookup_applyBucket_not_mem _ _ _ _ hnotD,
      lookup_applyBucket_not_mem _ _ _ _ hnotA,
      lookup_applyBucket_not_mem _ _ _ _ hnotE,
      lookup_applyBucket_mem "name" (nameBucket data) _ _ (bucket_nodup hnd _) hbk hkeys,
      lookup_scanned hnd hmem]
    simp only [Bool.not_eq_true'] at hne
    simp [hne, updFn, pyStr]
  · -- Email bucket
    intro k v hmem hbk
    have hpred : inEmailBucket data (k, v) = true :=
      (mem_keyfilter_iff hnd hmem (inEmailBucket data)).mp hbk
    have hparts := hpred
    unfold inEmailBucket at hparts
    simp only [Bool.and_eq_true, Bool.not_eq_true'] at hparts
    obtain ⟨⟨hne, hbr⟩, hec⟩ := hparts
    have hnotN : k ∉ nameBucket data := by
      intro hk
      have h2 := (mem_keyfilter_iff hnd hmem (inNameBucket data)).mp hk
      rw [show inNameBucket data (k, v) = false by simp [inNameBucket, hbr]] at h2
      cases h2
    have hnotA : k ∉ addressBucket data := by
      intro hk
      have h2 := (mem_keyfilter_iff hnd hmem (inAddressBucket data)).mp hk
      rw [show inAddressBucket data (k, v) = false by simp [inAddressBucket, hec]] at h2
      cases h2
    have hnotD : k ∉ deviceBucket data := by
      intro hk
      have h2 := (mem_keyfilter_iff hnd hmem (inDeviceBucket data)).mp hk
      rw [show inDeviceBucket data (k, v) = false by simp [inDeviceBucket, hec]] at h2
      cases h2
    have hnotI : k ∉ ipBucket data := by
      intro hk
      have h2 := (mem_keyfilter_iff hnd hmem (inIpBucket data)).mp hk
      rw [show inIpBucket data (k, v) = false by simp [inIpBucket, hec]] at h2
      cases h2
    have hkeys : k ∈ (data.map scanPair).map Prod.fst := by
      rw [hkeys_scanned]
      exact List.mem_map.mpr ⟨(k, v), hmem, rfl⟩
    have hkeys2 : k ∈ (applyBucket "name" (nameBucket data)
        (data.map scanPair)).map Prod.fst := by
      rw [keys_applyBucket]
      exact hkeys
    rw [hana,
      lookup_applyBucket_not_mem _ _ _ _ hnotI,
      lookup_applyBucket_not_mem _ _ _ _ hnotD,
      lookup_applyBucket_not_mem _ _ _ _ hnotA,
      lookup_applyBucket_mem "email" (emailBucket data) _ _ (bucket_nodup hnd _) hbk hkeys2,
      lookup_applyBucket_not_mem _ _ _ _ hnotN,
      lookup_scanned hnd hmem]
    simp [hne, updFn, pyStr]
  · -- DeviceId bucket
    intro k v hmem hbk
    have hpred : inDeviceBucket data (k, v) = true :=
      (mem_keyfilter_iff hnd hmem (inDeviceBucket data)).mp hbk
    have hparts := hpred
    unfold inDeviceBucket at hparts
    simp only [Bool.and_eq_true, Bool.not_eq_true', beq_iff_eq] at hparts
    obtain ⟨⟨⟨⟨hne, hbr⟩, hec⟩, hac⟩, hkey⟩ := hparts
    have hnotN : k ∉ nameBucket data := by
      intro hk
      have h2 := (mem_keyfilter_iff hnd hmem (inNameBucket data)).mp hk
      rw [show inNameBucket data (k, v) = false by simp [inNameBucket, hbr]] at h2
      cases h2
    have hnotE : k ∉ emailBucket data := by
      intro hk
      have h2 := (mem_keyfilter_iff hnd hmem (inEmailBucket data)).mp hk
      rw [show inEmailBucket data (k, v) = false by simp [inEmailBucket, hec]] at h2
      cases h2
    have hnotA : k ∉ addressBucket data := by
      intro hk
      have h2 := (mem_keyfilter_iff hnd hmem (inAddressBucket data)).mp hk
      rw [show inAddressBucket data (k, v) = false by simp [inAddressBucket, hac]] at h2
      cases h2
    have hnotI : k ∉ ipBucket data := by
      intro hk
      have h2 := (mem_keyfilter_iff hnd hmem (inIpBucket data)).mp hk
      rw [show inIpBucket data (k, v) = false by
        simp [inIpBucket, hkey]] at h2
      cases h2
    have hkeys : k ∈ (data.map scanPair).map Prod.fst := by
      rw [hkeys_scanned]
      exact List.mem_map.mpr ⟨(k, v), hmem, rfl⟩
    have hkeys2 : k ∈ (applyBucket "address" (addressBucket data)
        (applyBucket "email" (emailBucket data)
          (applyBucket "name" (nameBucket data) (data.map scanPair)))).map Prod.fst := by
      rw [keys_applyBucket, keys_applyBucket, keys_applyBucket]
      exact hkeys
    rw [hana,
      lookup_applyBucket_not_mem _ _ _ _ hnotI,
      lookup_applyBucket_mem "device_id" (deviceBucket data) _ _ (bucket_nodup hnd _) hbk hkeys2,
      lookup_applyBucket_not_mem _ _ _ _ hnotA,
      lookup_applyBucket_not_mem _ _ _ _ hnotE,
      lookup_applyBucket_not_mem _ _ _ _ hnotN,
      lookup_scanned hnd hmem]
    simp [hne, updFn_device]
  · -- IpAddress bucket
    intro k v hmem hbk
    have hpred : inIpBucket data (k, v) = true :=
      (mem_keyfilter_iff hnd hmem (inIpBucket data)).mp hbk
    have hparts := hpred
    unfold inIpBucket at hparts
    simp only [Bool.and_eq_true, Bool.not_eq_true', beq_iff_eq] at hparts
    obtain ⟨⟨⟨⟨hne, hbr⟩, hec⟩, hac⟩, hkey⟩ := hparts
    have hnotN : k ∉ nameBucket data := by
      intro hk
      have h2 := (mem_keyfilter_iff hnd hmem (inNameBucket data)).mp hk
      rw [show inNameBucket data (k, v) = false by simp [inNameBucket, hbr]] at h2
      cases h2
    have hnotE : k ∉ emailBucket data := by
      intro hk
      have h2 := (mem_keyfilter_iff hnd hmem (inEmailBucket data)).mp hk
      rw [show inEmailBucket data (k, v) = false by simp [inEmailBucket, hec]] at h2
      cases h2
    have hnotA : k ∉ addressBucket data := by
      intro hk
      have h2 := (mem_keyfilter_iff hnd hmem (inAddressBucket data)).mp hk
      rw [show inAddressBucket data (k, v) = false by simp [inAddressBucket, hac]] at h2
      cases h2
    have hnotD : k ∉ deviceBucket data := by
      intro hk
      have h2 := (mem_keyfilter_iff hnd hmem (inDeviceBucket data)).mp hk
      rw [show inDeviceBucket data (k, v) = false by
        simp [inDeviceBucket, hkey]] at h2
      cases h2
    have hkeys : k ∈ (data.map scanPair).map Prod.fst := by
      rw [hkeys_scanned]
      exact List.mem_map.mpr ⟨(k, v), hmem, rfl⟩
    have hkeys2 : k ∈ (applyBucket "device_id" (deviceBucket data)
        (applyBucket "address" (addressBucket data)
          (applyBucket "email" (emailBucket data)
            (applyBucket "name" (nameBucket data) (data.map scanPair))))).map Prod.fst := by
      rw [keys_applyBucket, keys_applyBucket, keys_applyBucket, keys_applyBucket]
      exact hkeys
    rw [hana,
      lookup_applyBucket_mem "ip_address" (ipBucket data) _ _ (bucket_nodup hnd _) hbk hkeys2,
      lookup_applyBucket_not_mem _ _ _ _ hnotD,
      lookup_applyBucket_not_mem _ _ _ _ hnotA,
      lookup_applyBucket_not_mem _ _ _ _ hnotE,
      lookup_applyBucket_not_mem _ _ _ _ hnotN,
      lookup_scanned hnd hmem]
    simp [hne, updFn_ip]
  · -- Address bucket: untouched by the redaction pass
    intro k v hmem hbk
    have hpred : inAddressBucket data (k, v) = true :=
      (mem_keyfilter_iff hnd hmem (inAddressBucket data)).mp hbk
    have hparts := hpred
    unfold inAddressBucket at hparts
    simp only [Bool.and_eq_true, Bool.not_eq_true'] at hparts
    obtain ⟨⟨⟨hne, hbr⟩, hec⟩, hac⟩ := hparts
    have hnotN : k ∉ nameBucket data := by
      intro hk
      have h2 := (mem_keyfilter_iff hnd hmem (inNameBucket data)).mp hk
      rw [show inNameBucket data (k, v) = false by simp [inNameBucket, hbr]] at h2
      cases h2
    have hnotE : k ∉ emailBucket data := by
      intro hk
      have h2 := (mem_keyfilter_iff hnd hmem (inEmailBucket data)).mp hk
      rw [show inEmailBucket data (k, v) = false by simp [inEmailBucket, hec]] at h2
      cases h2
    have hnotD : k ∉ deviceBucket data := by
      intro hk
      have h2 := (mem_keyfilter_iff hnd hmem (inDeviceBucket data)).mp hk
      rw [show inDeviceBucket data (k, v) = false by simp [inDeviceBucket, hac]] at h2
      cases h2
    have hnotI : k ∉ ipBucket data := by
      intro hk
      have h2 := (mem_keyfilter_iff hnd hmem (inIpBucket data)).mp hk
      rw [show inIpBucket data (k, v) = false by simp [inIpBucket, hac]] at h2
      cases h2
    have hkeys : k ∈ (data.map scanPair).map Prod.fst := by
      rw [hkeys_scanned]
      exact List.mem_map.mpr ⟨(k, v), hmem, rfl⟩
    have hkeys2 : k ∈ (applyBucket "email" (emailBucket data)
        (applyBucket "name" (nameBucket data) (data.map scanPair))).map Prod.fst := by
      rw [keys_applyBucket, keys_applyBucket]
      exact hkeys
    have hupd : updFn "address" = fun cur => cur := by
      funext cur
      unfold updFn
      rfl
    rw [hana,
      lookup_applyBucket_not_mem _ _ _ _ hnotI,
      lookup_applyBucket_not_mem _ _ _ _ hnotD,
      lookup_applyBucket_mem "address" (addressBucket data) _ _ (bucket_nodup hnd _) hbk hkeys2,
      lookup_applyBucket_not_mem _ _ _ _ hnotE,
      lookup_applyBucket_not_mem _ _ _ _ hnotN,
      lookup_scanned hnd hmem]
    rw [hupd]
    simp [hne]

/-- C1 witness: the amended statement evaluated on the record
`[("city", "Mumbai"), ("email", "rahul@x.com")]` — the Email-bucket field is
masked with the email mask and the Address-bucket field keeps its post-scan
value. -/
theorem C1_witness :
    lookupKey (analyze_record
        [("city", Value.vstr "Mumbai".toList),
         ("email", Value.vstr "rahul@x.com".toList)]).2 "email"
      = some (Value.vstr (redact_text
          (scanString "email" (Value.vstr "rahul@x.com".toList)) "email"))
    ∧ lookupKey (analyze_record
        [("city", Value.vstr "Mumbai".toList),
         ("email", Value.vstr "rahul@x.com".toList)]).2 "city"
      = some (Value.vstr (scanString "city" (Value.vstr "Mumbai".toList))) :=
  ⟨(C1_amended
      [("city", Value.vstr "Mumbai".toList), ("email", Value.vstr "rahul@x.com".toList)]
      (by decide) (by decide)).2.1 "email" (Value.vstr "rahul@x.com".toList)
      (by decide) (by decide),
   (C1_amended
      [("city", Value.vstr "Mumbai".toList), ("email", Value.vstr "rahul@x.com".toList)]
      (by decide) (by decide)).2.2.2.2 "city" (Value.vstr "Mumbai".toList)
      (by decide) (by decide)⟩
